import Mathlib

/-!
Verification of the WiFi scan subsystem of wifi-connect-async.

The development shallowly embeds the scan-related code:
  * `src/nl80211/scan.rs` — the netlink scan orchestrator: `scan`,
    `get_interfaces`, `trigger_scan`, `complete_scan`, `get_scan_results`,
    `recv_all`, `extract_ssid`, `extract_element`, `dbm_level_to_quality`;
  * `src/network.rs` — the NetworkManager-side helpers `scan_wifi` and
    `get_nearby_stations` (sort / de-duplicate / drop-hidden pipeline).

Modelling conventions:
  * byte buffers are `List Nat` (each element a byte value);
  * Rust `String` SSIDs are kept as their UTF-8 byte lists, since Rust
    string equality and ordering coincide with byte-list equality and
    lexicographic ordering;
  * fallible decoding steps (`get_payload().ok()`, attribute lookup,
    scalar parsing) are modelled as `Option`-valued fields/functions;
  * socket receives are modelled by the list of message batches the
    socket would deliver; a missing further batch models a receive
    failure or indefinite blocking, making the drain functions
    `Option`-valued;
  * the `f64` arithmetic of `dbm_level_to_quality` is modelled exactly
    over `ℚ`: every `f64` step of the source (division by 100, clamp,
    abs, linear map, round half-away-from-zero, clamp, saturating cast
    to `u8`) is the correctly rounded image of the corresponding real
    operation, and all values reached here are far below the magnitudes
    where `f64` rounding could move a result across the properties
    stated about it.
-/

/-! ## Quality model (`dbm_level_to_quality`, src/nl80211/scan.rs) -/

/-- Rust `f64::clamp(self, lo, hi)` on finite values:
`if self < lo { lo } else if self > hi { hi } else { self }`. -/
def fclamp (x lo hi : ℚ) : ℚ := if x < lo then lo else if x > hi then hi else x

/-- Rust `f64::round`: round to the nearest integer, ties away from zero. -/
def roundQ (x : ℚ) : Int := if 0 ≤ x then ⌊x + 1 / 2⌋ else -⌊-x + 1 / 2⌋

/-- Clamp on integers, same branch structure as `f64::clamp`. -/
def iclamp (x lo hi : Int) : Int := if x < lo then lo else if x > hi then hi else x

/-- `dbm_level_to_quality` from src/nl80211/scan.rs: divide the signal
(hundredths of dBm) by 100, clamp to [-100, -40] dBm, take `|val + 40|`,
map linearly by `100 - 100*val/60`, round, clamp to [0, 100], and cast
to `u8` (the cast saturates to [0, 255], hence `iclamp _ 0 255`). -/
def dbm_level_to_quality (signal : Int) : Nat :=
  let val1 : ℚ := (signal : ℚ) / 100
  let val2 : ℚ := fclamp val1 (-100) (-40)
  let val3 : ℚ := |val2 + 40|
  let val4 : Int := roundQ (100 - 100 * val3 / 60)
  let val5 : Int := iclamp val4 0 100
  (iclamp val5 0 255).toNat

theorem fclamp_mono {lo hi : ℚ} (hlh : lo ≤ hi) {x y : ℚ} (h : x ≤ y) :
    fclamp x lo hi ≤ fclamp y lo hi := by
  unfold fclamp
  split_ifs <;> linarith

theorem fclamp_range {lo hi : ℚ} (hlh : lo ≤ hi) (x : ℚ) :
    lo ≤ fclamp x lo hi ∧ fclamp x lo hi ≤ hi := by
  unfold fclamp
  split_ifs <;> constructor <;> linarith

theorem roundQ_mono {x y : ℚ} (h : x ≤ y) : roundQ x ≤ roundQ y := by
  unfold roundQ
  split_ifs with h1 h2
  · exact Int.floor_le_floor (by linarith)
  · linarith
  · have hx : (0 : Int) ≤ ⌊-x + 1 / 2⌋ := Int.floor_nonneg.mpr (by linarith)
    have hy : (0 : Int) ≤ ⌊y + 1 / 2⌋ := Int.floor_nonneg.mpr (by linarith)
    omega
  · have : ⌊-y + 1 / 2⌋ ≤ ⌊-x + 1 / 2⌋ := Int.floor_le_floor (by linarith)
    omega

theorem iclamp_mono {lo hi : Int} {x y : Int} (hlh : lo ≤ hi) (h : x ≤ y) :
    iclamp x lo hi ≤ iclamp y lo hi := by
  unfold iclamp
  split_ifs <;> omega

theorem toNat_iclamp_le (v : Int) : (iclamp (iclamp v 0 100) 0 255).toNat ≤ 100 := by
  unfold iclamp
  split_ifs <;> omega

theorem dbm_level_to_quality_mono {s t : Int} (h : s ≤ t) :
    dbm_level_to_quality s ≤ dbm_level_to_quality t := by
  simp only [dbm_level_to_quality]
  have hdiv : (s : ℚ) / 100 ≤ (t : ℚ) / 100 := by
    have : (s : ℚ) ≤ (t : ℚ) := by exact_mod_cast h
    linarith
  have hc : fclamp ((s : ℚ) / 100) (-100) (-40) ≤ fclamp ((t : ℚ) / 100) (-100) (-40) :=
    fclamp_mono (by norm_num) hdiv
  have hrs := @fclamp_range (-100) (-40) (by norm_num) ((s : ℚ) / 100)
  have hrt := @fclamp_range (-100) (-40) (by norm_num) ((t : ℚ) / 100)
  rw [abs_of_nonpos (by linarith [hrs.2]), abs_of_nonpos (by linarith [hrt.2])]
  have hpre : (100 : ℚ) - 100 * -(fclamp ((s : ℚ) / 100) (-100) (-40) + 40) / 60 ≤
      100 - 100 * -(fclamp ((t : ℚ) / 100) (-100) (-40) + 40) / 60 := by linarith
  have hr := roundQ_mono hpre
  have h5 := @iclamp_mono 0 100 _ _ (by norm_num) hr
  have h6 := @iclamp_mono 0 255 _ _ (by norm_num) h5
  exact Int.toNat_le_toNat h6

theorem dbm_level_to_quality_le (s : Int) : dbm_level_to_quality s ≤ 100 := by
  simp only [dbm_level_to_quality]
  exact toNat_iclamp_le _

theorem dbm_eval_m4000 : dbm_level_to_quality (-4000) = 100 := by
  unfold dbm_level_to_quality fclamp roundQ iclamp
  norm_num
  decide

theorem dbm_eval_m10000 : dbm_level_to_quality (-10000) = 0 := by
  unfold dbm_level_to_quality fclamp roundQ iclamp
  norm_num

theorem dbm_eval_m7000 : dbm_level_to_quality (-7000) = 50 := by
  unfold dbm_level_to_quality fclamp roundQ iclamp
  norm_num
  decide

theorem dbm_eval_m5200 : dbm_level_to_quality (-5200) = 80 := by
  unfold dbm_level_to_quality fclamp roundQ iclamp
  norm_num
  decide

theorem dbm_eval_i32_min : dbm_level_to_quality (-2147483648) = 0 := by
  unfold dbm_level_to_quality fclamp roundQ iclamp
  norm_num

theorem dbm_eval_i32_max : dbm_level_to_quality 2147483647 = 100 := by
  unfold dbm_level_to_quality fclamp roundQ iclamp
  norm_num
  decide

/-- C6: the quality function satisfies `quality(-4000) = 100`,
`quality(-10000) = 0`, is monotonically non-increasing as the signal
decreases (i.e. non-decreasing in the signal), and stays within
[0, 100] for every signed 32-bit input including the extremes (the
lower bound 0 is automatic since the result is a `Nat`). -/
theorem dbm_level_to_quality_spec :
    dbm_level_to_quality (-4000) = 100 ∧
    dbm_level_to_quality (-10000) = 0 ∧
    (∀ s t : Int, s ≤ t → dbm_level_to_quality s ≤ dbm_level_to_quality t) ∧
    (∀ s : Int, -2147483648 ≤ s → s ≤ 2147483647 → dbm_level_to_quality s ≤ 100) ∧
    dbm_level_to_quality (-2147483648) = 0 ∧ dbm_level_to_quality 2147483647 = 100 :=
  ⟨dbm_eval_m4000, dbm_eval_m10000,
   fun _ _ h => dbm_level_to_quality_mono h,
   fun s _ _ => dbm_level_to_quality_le s,
   dbm_eval_i32_min, dbm_eval_i32_max⟩

/-- Witness for C6: discharge the hypotheses of the quantified parts at
concrete inputs. -/
theorem dbm_level_to_quality_spec_witness :
    dbm_level_to_quality (-9000) ≤ dbm_level_to_quality (-5000) ∧
    dbm_level_to_quality (-123456) ≤ 100 :=
  ⟨dbm_level_to_quality_spec.2.2.1 (-9000) (-5000) (by decide),
   dbm_level_to_quality_spec.2.2.2.1 (-123456) (by decide) (by decide)⟩

/-! ## Information-element extractor (`extract_element`, `extract_ssid`) -/

/-- The 802.11 element id carrying the SSID (`WLAN_EID_SSID` in the source). -/
def WLAN_EID_SSID : Nat := 0

/-- `extract_element` from src/nl80211/scan.rs: read one id byte and one
length byte from the cursor, then exactly `size` payload bytes; any
shortfall yields `None`.  The cursor is modelled by the list of bytes
still to be read, and the successful result carries the remaining list. -/
def extract_element : List Nat → Option ((Nat × List Nat) × List Nat)
  | eid :: size :: rest =>
    if size ≤ rest.length then some ((eid, rest.take size), rest.drop size) else none
  | _ => none

/-- Fuel-indexed version of the `extract_ssid` loop.  Each loop iteration
of the source consumes at least two bytes of the cursor, so
`buf.length` fuel always suffices; the fuel only makes the recursion
structural. -/
def extract_ssid_go (fuel : Nat) (buf : List Nat) : List Nat :=
  match fuel with
  | 0 => []
  | fuel + 1 =>
    match extract_element buf with
    | some ((eid, data), rest) =>
      if eid = WLAN_EID_SSID then data else extract_ssid_go fuel rest
    | none => []

/-- `extract_ssid` from src/nl80211/scan.rs: walk the element chain and
return the payload of the first element whose id is `WLAN_EID_SSID`,
or `[]` when the walk ends without a match. -/
def extract_ssid (buf : List Nat) : List Nat := extract_ssid_go buf.length buf

theorem extract_element_rest_length {buf : List Nat} {eid : Nat} {data rest : List Nat}
    (h : extract_element buf = some ((eid, data), rest)) : rest.length + 2 ≤ buf.length := by
  match buf with
  | [] => simp [extract_element] at h
  | [b] => simp [extract_element] at h
  | a :: b :: t =>
    by_cases hle : b ≤ t.length
    · simp only [extract_element, if_pos hle, Option.some.injEq, Prod.mk.injEq] at h
      rcases h with ⟨⟨h1, h2⟩, h3⟩
      subst h3
      simp only [List.length_drop, List.length_cons]
      omega
    · simp [extract_element, hle] at h

theorem extract_ssid_go_congr : ∀ (f1 f2 : Nat) (buf : List Nat),
    buf.length ≤ f1 → buf.length ≤ f2 → extract_ssid_go f1 buf = extract_ssid_go f2 buf := by
  intro f1
  induction f1 with
  | zero =>
    intro f2 buf h1 _
    have hbuf : buf = [] := List.eq_nil_of_length_eq_zero (Nat.le_zero.mp h1)
    subst hbuf
    cases f2 <;> simp [extract_ssid_go, extract_element]
  | succ f1 ih =>
    intro f2 buf h1 h2
    cases f2 with
    | zero =>
      have hbuf : buf = [] := List.eq_nil_of_length_eq_zero (Nat.le_zero.mp h2)
      subst hbuf
      simp [extract_ssid_go, extract_element]
    | succ f2 =>
      simp only [extract_ssid_go]
      cases hx : extract_element buf with
      | none => rfl
      | some val =>
        obtain ⟨⟨eid, data⟩, rest⟩ := val
        have hlen := extract_element_rest_length hx
        by_cases he : eid = WLAN_EID_SSID
        · simp [he]
        · simp only [he, if_false]
          exact ih f2 rest (by omega) (by omega)

/-- Encoding of one information element: id byte, length byte, payload. -/
def encodeElement (e : Nat × List Nat) : List Nat := e.1 :: e.2.length :: e.2

/-- Encoding of a chain of information elements. -/
def encodeElements (es : List (Nat × List Nat)) : List Nat := (es.map encodeElement).flatten

theorem encodeElements_cons (e : Nat × List Nat) (es : List (Nat × List Nat)) :
    encodeElements (e :: es) = encodeElement e ++ encodeElements es := by
  simp [encodeElements]

theorem extract_element_encode (e : Nat × List Nat) (t : List Nat) :
    extract_element (encodeElement e ++ t) = some ((e.1, e.2), t) := by
  show extract_element (e.1 :: e.2.length :: (e.2 ++ t)) = _
  simp only [extract_element]
  rw [if_pos (by simp)]
  rw [List.take_left, List.drop_left]

theorem extract_ssid_go_step (fuel : Nat) (e : Nat × List Nat) (t : List Nat)
    (hne : e.1 ≠ WLAN_EID_SSID) :
    extract_ssid_go (fuel + 1) (encodeElement e ++ t) = extract_ssid_go fuel t := by
  simp only [extract_ssid_go, extract_element_encode]
  simp [hne]

theorem extract_ssid_go_found (fuel : Nat) (d t : List Nat) :
    extract_ssid_go (fuel + 1) (encodeElement (WLAN_EID_SSID, d) ++ t) = d := by
  simp only [extract_ssid_go, extract_element_encode]
  simp

theorem extract_ssid_go_first_match :
    ∀ (pre : List (Nat × List Nat)) (fuel : Nat) (d t : List Nat),
    (∀ e ∈ pre, e.1 ≠ WLAN_EID_SSID) →
    (encodeElements pre ++ encodeElement (WLAN_EID_SSID, d) ++ t).length ≤ fuel + 1 →
    extract_ssid_go (fuel + 1) (encodeElements pre ++ encodeElement (WLAN_EID_SSID, d) ++ t) = d := by
  intro pre
  induction pre with
  | nil =>
    intro fuel d t _ _
    simpa [encodeElements] using extract_ssid_go_found fuel d t
  | cons e pre ih =>
    intro fuel d t hne hlen
    rw [encodeElements_cons, List.append_assoc, List.append_assoc]
    rw [← List.append_assoc (encodeElements pre)]
    have hstep := extract_ssid_go_step fuel e
      (encodeElements pre ++ encodeElement (WLAN_EID_SSID, d) ++ t)
      (hne e (by simp))
    rw [hstep]
    cases fuel with
    | zero =>
      exfalso
      simp [encodeElements_cons, encodeElement] at hlen
    | succ fuel =>
      apply ih fuel d t (fun x hx => hne x (by simp [hx]))
      simp only [encodeElements_cons, encodeElement, List.length_append, List.length_cons] at hlen ⊢
      omega

theorem extract_ssid_go_not_found :
    ∀ (es : List (Nat × List Nat)) (fuel : Nat) (t : List Nat),
    (∀ e ∈ es, e.1 ≠ WLAN_EID_SSID) → extract_element t = none →
    (encodeElements es ++ t).length ≤ fuel →
    extract_ssid_go fuel (encodeElements es ++ t) = [] := by
  intro es
  induction es with
  | nil =>
    intro fuel t _ ht _
    cases fuel with
    | zero => simp [extract_ssid_go]
    | succ fuel => simp [encodeElements, extract_ssid_go, ht]
  | cons e es ih =>
    intro fuel t hne ht hlen
    cases fuel with
    | zero =>
      exfalso
      simp [encodeElements_cons, encodeElement] at hlen
    | succ fuel =>
      rw [encodeElements_cons, List.append_assoc]
      rw [extract_ssid_go_step fuel e (encodeElements es ++ t) (hne e (by simp))]
      apply ih fuel t (fun x hx => hne x (by simp [hx])) ht
      simp only [encodeElements_cons, encodeElement, List.length_append, List.length_cons] at hlen ⊢
      omega

theorem extract_element_eq_none (t : List Nat) :
    extract_element t = none ↔ (t.length < 2 ∨ ∃ a b r, t = a :: b :: r ∧ r.length < b) := by
  match t with
  | [] => simp [extract_element]
  | [a] => simp [extract_element]
  | a :: b :: r =>
    constructor
    · intro h
      right
      refine ⟨a, b, r, rfl, ?_⟩
      by_contra hc
      simp [extract_element, Nat.le_of_not_lt (fun hlt => hc hlt)] at h
    · rintro (h | ⟨a', b', r', heq, hlt⟩)
      · simp only [List.length_cons] at h
        omega
      · cases heq
        simp only [extract_element, List.length_cons]
        rw [if_neg (by omega)]

/-- C7: for every byte buffer built of well-formed elements, the
extractor returns the payload of the first element whose id is the SSID
id, regardless of what follows it (first match wins, no further
scanning); and when no element matches and the trailing data is
malformed — fewer than 2 bytes left, or a declared length exceeding the
remaining bytes — or the buffer simply ends, it reports "not found" as
the empty result without erroring. -/
theorem extract_ssid_contract :
    (∀ (pre : List (Nat × List Nat)) (d t : List Nat),
        (∀ e ∈ pre, e.1 ≠ WLAN_EID_SSID) → (∀ e ∈ pre, e.2.length ≤ 255) →
        d.length ≤ 255 →
        extract_ssid (encodeElements pre ++ encodeElement (WLAN_EID_SSID, d) ++ t) = d) ∧
    (∀ (es : List (Nat × List Nat)) (t : List Nat),
        (∀ e ∈ es, e.1 ≠ WLAN_EID_SSID) → (∀ e ∈ es, e.2.length ≤ 255) →
        (t.length < 2 ∨ ∃ a b r, t = a :: b :: r ∧ r.length < b) →
        extract_ssid (encodeElements es ++ t) = []) := by
  constructor
  · intro pre d t hne _ _
    unfold extract_ssid
    have hlen : (encodeElements pre ++ encodeElement (WLAN_EID_SSID, d) ++ t).length =
        ((encodeElements pre ++ encodeElement (WLAN_EID_SSID, d) ++ t).length - 1) + 1 := by
      simp [encodeElement]
      omega
    rw [hlen]
    exact extract_ssid_go_first_match pre _ d t hne (by omega)
  · intro es t hne _ ht
    unfold extract_ssid
    exact extract_ssid_go_not_found es _ t hne ((extract_element_eq_none t).mpr ht) le_rfl

/-- Witness for C7: the spec's example buffer `[(5,"x"), (0,"MyNet"), (1,"y")]`
yields the bytes of "MyNet", and a buffer whose trailing element declares
a length longer than the remaining bytes yields "not found". -/
theorem extract_ssid_contract_witness :
    extract_ssid [5, 1, 120, 0, 5, 77, 121, 78, 101, 116, 1, 1, 121] = [77, 121, 78, 101, 116] ∧
    extract_ssid [5, 1, 120, 9, 200] = [] := by
  constructor
  · have h := extract_ssid_contract.1 [(5, [120])] [77, 121, 78, 101, 116] [1, 1, 121]
      (by decide) (by decide) (by decide)
    simpa using h
  · have h := extract_ssid_contract.2 [(5, [120])] [9, 200]
      (by decide) (by decide) (Or.inr ⟨9, 200, [], rfl, by decide⟩)
    simpa using h

/-! ## UTF-8 validation (Rust `String::from_utf8` succeeds or fails) -/

/-- `true` iff `lo ≤ b ≤ hi`. -/
def byteBetween (lo hi b : Nat) : Bool := decide (lo ≤ b) && decide (b ≤ hi)

/-- A UTF-8 continuation byte. -/
def utf8Cont (b : Nat) : Bool := byteBetween 0x80 0xBF b

/-- UTF-8 validity of a byte list, mirroring the validation performed by
Rust's `String::from_utf8` (including the overlong-encoding and
surrogate restrictions on the second byte after `0xE0`/`0xED` and
`0xF0`/`0xF4`).  `String::from_utf8(bytes)` succeeds iff `utf8Valid
bytes`, and the resulting string is empty iff `bytes` is empty, which is
all the embedding needs about it. -/
def utf8Valid : List Nat → Bool
  | [] => true
  | b :: rest =>
    if b ≤ 0x7F then utf8Valid rest
    else if b < 0xC2 then false
    else if b ≤ 0xDF then
      match rest with
      | c1 :: r => utf8Cont c1 && utf8Valid r
      | [] => false
    else if b ≤ 0xEF then
      match rest with
      | c1 :: c2 :: r =>
        (if b = 0xE0 then byteBetween 0xA0 0xBF c1
         else if b = 0xED then byteBetween 0x80 0x9F c1
         else utf8Cont c1) && utf8Cont c2 && utf8Valid r
      | _ => false
    else if b ≤ 0xF4 then
      match rest with
      | c1 :: c2 :: c3 :: r =>
        (if b = 0xF0 then byteBetween 0x90 0xBF c1
         else if b = 0xF4 then byteBetween 0x80 0x8F c1
         else utf8Cont c1) && utf8Cont c2 && utf8Cont c3 && utf8Valid r
      | _ => false
    else false

/-! ## Stations and the post-processing pipeline (`get_nearby_stations`) -/

/-- `Station` from src/network.rs (`{ ssid: String, quality: u8 }`); the
SSID is kept as its UTF-8 byte list. -/
structure Station where
  ssid : List Nat
  quality : Nat
deriving DecidableEq

/-- Lexicographic order on byte lists; this is exactly the `Ord` of Rust
`String`, which compares UTF-8 bytes lexicographically. -/
def bytesLe : List Nat → List Nat → Bool
  | [], _ => true
  | _ :: _, [] => false
  | a :: as', b :: bs' => if a < b then true else if a = b then bytesLe as' bs' else false

/-- The sort key `(station.quality, station.ssid.clone())` of
src/network.rs compared with Rust's lexicographic tuple order. -/
def stationKeyLe (a b : Station) : Bool :=
  if a.quality < b.quality then true
  else if a.quality = b.quality then bytesLe a.ssid b.ssid
  else false

/-- Insert a station after every already-placed station whose key is ≤
its key. -/
def insertSorted (a : Station) : List Station → List Station
  | [] => [a]
  | b :: bs => if stationKeyLe b a then b :: insertSorted a bs else a :: b :: bs

/-- Stable ascending sort by `(quality, ssid)`.  Rust's
`slice::sort_by_key` is a stable sort, and every stable sort with
respect to the same total key order computes the same list, so this
left-to-right insertion sort is the same list function. -/
def sortByKey (l : List Station) : List Station :=
  l.foldl (fun acc a => insertSorted a acc) []

/-- The `retain(|station| inserted.insert(station.ssid.clone()))` pass of
`get_nearby_stations`: keep the first occurrence of every SSID, in list
order; the `HashSet` of already-seen SSIDs is modelled as a list. -/
def dedupBySsid (seen : List (List Nat)) : List Station → List Station
  | [] => []
  | s :: rest =>
    if s.ssid ∈ seen then dedupBySsid seen rest
    else s :: dedupBySsid (s.ssid :: seen) rest

/-- `get_nearby_stations` from src/network.rs, applied to the candidate
station list: sort ascending by `(quality, ssid)`, reverse, purge
duplicate SSIDs keeping the first survivor, purge empty (hidden) SSIDs. -/
def get_nearby_stations (candidates : List Station) : List Station :=
  let stations := (sortByKey candidates).reverse
  let stations := dedupBySsid [] stations
  stations.filter (fun station => !station.ssid.isEmpty)

/-- C5 (counterexample): on the input `[("A",50), ("B",80), ("A",90), ("",99)]`
the pipeline does not produce the claimed `[("A",90), ("B",50)]`
(SSIDs as byte lists: "A" = [65], "B" = [66]). -/
theorem get_nearby_stations_example_counterexample :
    get_nearby_stations [⟨[65], 50⟩, ⟨[66], 80⟩, ⟨[65], 90⟩, ⟨[], 99⟩] ≠
      [⟨[65], 90⟩, ⟨[66], 50⟩] := by decide

/-- C5 (amended): the pipeline on `[("A",50), ("B",80), ("A",90), ("",99)]`
yields `[("A",90), ("B",80)]` — the hidden SSID is dropped, the duplicate
"A" resolves to the higher quality, the result is sorted descending by
quality, and "B" keeps its own quality 80. -/
theorem get_nearby_stations_example :
    get_nearby_stations [⟨[65], 50⟩, ⟨[66], 80⟩, ⟨[65], 90⟩, ⟨[], 99⟩] =
      [⟨[65], 90⟩, ⟨[66], 80⟩] := by decide

/-! ## Netlink message stream and `recv_all` (src/nl80211/scan.rs) -/

/-- The netlink `NLMSG_DONE` message type (the `Nlmsg::Done` sentinel). -/
def NLMSG_DONE : Nat := 3

/-- A top-level netlink message as seen by the receive loop: its outer
message type and its (already partially decoded) payload. -/
structure NlMessage (α : Type) where
  nlType : Nat
  payload : α
deriving DecidableEq

/-- The `msg.nl_type == Nlmsg::Done` test of `recv_all`. -/
def isDone {α : Type} (m : NlMessage α) : Bool := m.nlType == NLMSG_DONE

/-- One iteration of the inner `for msg in msgs` loop of `recv_all`:
collect the extractor's non-`None` results in order, stopping at the
first `Done`-marked message; the flag records whether `Done` was seen. -/
def recv_batch {α β : Type} (f : NlMessage α → Option β) :
    List (NlMessage α) → List β × Bool
  | [] => ([], false)
  | m :: ms =>
    if isDone m then ([], true)
    else
      let r := recv_batch f ms
      match f m with
      | some t => (t :: r.1, r.2)
      | none => r

/-- `recv_all` from src/nl80211/scan.rs: drain receive batches until a
`Done`-marked message is observed, applying the caller-supplied partial
extractor to every ordinary message.  The input list holds the batches
the socket would deliver in order; running out of batches before `Done`
models a receive failure / indefinite blocking, hence the `Option`. -/
def recv_all {α β : Type} (f : NlMessage α → Option β) :
    List (List (NlMessage α)) → Option (List β)
  | [] => none
  | b :: bs =>
    let r := recv_batch f b
    if r.2 then some r.1
    else
      match recv_all f bs with
      | some rest => some (r.1 ++ rest)
      | none => none

/-- Negation of `isDone`, used as a `takeWhile` predicate. -/
def notDone {α : Type} (m : NlMessage α) : Bool := !isDone m

/-- Whether a batch contains a `Done`-marked message. -/
def batchHasDone {α : Type} (b : List (NlMessage α)) : Bool := b.any (fun m => isDone m)

/-- Whether some batch of the stream contains a `Done`-marked message. -/
def streamHasDone {α : Type} (s : List (List (NlMessage α))) : Bool := s.any batchHasDone

/-- All messages of the stream strictly before the first `Done` marker. -/
def beforeDone {α : Type} : List (List (NlMessage α)) → List (NlMessage α)
  | [] => []
  | b :: bs => if batchHasDone b then b.takeWhile notDone else b ++ beforeDone bs

theorem recv_batch_eq {α β : Type} (f : NlMessage α → Option β) (b : List (NlMessage α)) :
    recv_batch f b = ((b.takeWhile notDone).filterMap f, batchHasDone b) := by
  induction b with
  | nil => simp [recv_batch, batchHasDone]
  | cons m ms ih =>
    by_cases hd : isDone m
    · simp [recv_batch, hd, batchHasDone, notDone, List.takeWhile_cons]
    · cases hf : f m with
      | some t =>
        simp [recv_batch, hd, hf, batchHasDone, notDone, List.takeWhile_cons,
          List.filterMap_cons, ih]
      | none =>
        simp [recv_batch, hd, hf, batchHasDone, notDone, List.takeWhile_cons,
          List.filterMap_cons, ih]

theorem takeWhile_notDone_of_no_done {α : Type} (b : List (NlMessage α))
    (h : batchHasDone b = false) : b.takeWhile notDone = b := by
  induction b with
  | nil => rfl
  | cons m ms ih =>
    simp only [batchHasDone, List.any_cons, Bool.or_eq_false_iff] at h
    simp only [List.takeWhile_cons, notDone, h.1, Bool.not_false, if_pos]
    rw [ih h.2]

theorem recv_all_drain {α β : Type} (f : NlMessage α → Option β)
    (s extra : List (List (NlMessage α))) (h : streamHasDone s = true) :
    recv_all f (s ++ extra) = some ((beforeDone s).filterMap f) := by
  induction s with
  | nil => simp [streamHasDone] at h
  | cons b bs ih =>
    simp only [List.cons_append, recv_all, recv_batch_eq]
    by_cases hb : batchHasDone b
    · simp [hb, beforeDone]
    · simp only [streamHasDone, List.any_cons, hb, Bool.false_or] at h
      rw [if_neg hb]
      simp only [List.append_eq]
      rw [ih h]
      simp [hb, beforeDone, List.filterMap_append,
        takeWhile_notDone_of_no_done b (Bool.eq_false_iff.mpr hb)]

/-- C8: for every batch stream containing a `Done`-marked message,
`recv_all` returns exactly the non-`None` results of the caller-supplied
extractor applied to the ordinary messages preceding the `Done` marker,
in arrival order; further queued batches (`extra`) are never read — the
result does not depend on them. -/
theorem recv_all_drains_until_done {α β : Type} (f : NlMessage α → Option β)
    (stream extra : List (List (NlMessage α))) (h : streamHasDone stream = true) :
    recv_all f (stream ++ extra) = some ((beforeDone stream).filterMap f) :=
  recv_all_drain f stream extra h

/-- Stream for the C8 witness: `[msg 1, junk]`, then `[msg 2, DONE, msg 7]`. -/
def wStream : List (List (NlMessage Nat)) :=
  [[⟨0, 1⟩, ⟨0, 0⟩], [⟨0, 2⟩, ⟨NLMSG_DONE, 5⟩, ⟨0, 7⟩]]

/-- Extra queued batches for the C8 witness, never to be read. -/
def wExtra : List (List (NlMessage Nat)) := [[⟨0, 9⟩]]

/-- Extractor for the C8 witness: payload 0 decodes to `none`. -/
def wExtract (m : NlMessage Nat) : Option Nat :=
  if m.payload = 0 then none else some m.payload

/-- Witness for C8 at a concrete stream: the results are `[1, 2]` — the
zero payload is dropped, and nothing after the `Done` marker (neither
the trailing 7 nor the extra batch's 9) contributes. -/
theorem recv_all_drains_until_done_witness :
    streamHasDone wStream = true ∧ recv_all wExtract (wStream ++ wExtra) = some [1, 2] :=
  ⟨by decide, (recv_all_drains_until_done wExtract wStream wExtra (by decide)).trans (by decide)⟩

theorem takeWhile_append_done {α : Type} (pre : List (NlMessage α)) (dmsg : NlMessage α)
    (post : List (NlMessage α)) (hpre : ∀ m ∈ pre, isDone m = false)
    (hd : isDone dmsg = true) :
    (pre ++ dmsg :: post).takeWhile notDone = pre := by
  induction pre with
  | nil => simp [List.takeWhile_cons, notDone, hd]
  | cons m ms ih =>
    simp only [List.cons_append, List.takeWhile_cons, notDone, hpre m (by simp),
      Bool.not_false, if_pos]
    rw [ih (fun x hx => hpre x (by simp [hx]))]

/-- C10: when a `Done`-marked message sits in the middle of a batch,
`recv_all` stops at it: the messages after the marker in the same batch
(and all later batches) are never passed to the extractor and contribute
no results — the output is exactly the extractor's results on the
messages before the marker. -/
theorem recv_all_stops_mid_batch {α β : Type} (f : NlMessage α → Option β)
    (pre : List (NlMessage α)) (dmsg : NlMessage α) (post : List (NlMessage α))
    (rest : List (List (NlMessage α)))
    (hpre : ∀ m ∈ pre, isDone m = false) (hd : isDone dmsg = true) :
    recv_all f ((pre ++ dmsg :: post) :: rest) = some (pre.filterMap f) := by
  simp only [recv_all, recv_batch_eq]
  have h1 : batchHasDone (pre ++ dmsg :: post) = true := by
    simp [batchHasDone, List.any_append, List.any_cons, hd]
  simp [h1, takeWhile_append_done pre dmsg post hpre hd]

/-- Witness for C10 at a concrete batch `[msg 4, DONE, msg 6]` followed by
another queued batch: the result is `[4]`. -/
theorem recv_all_stops_mid_batch_witness :
    recv_all wExtract [[⟨0, 4⟩, ⟨NLMSG_DONE, 0⟩, ⟨0, 6⟩], [⟨0, 8⟩]] = some [4] :=
  (recv_all_stops_mid_batch wExtract [⟨0, 4⟩] ⟨NLMSG_DONE, 0⟩ [⟨0, 6⟩] [[⟨0, 8⟩]]
    (by decide) (by decide)).trans (by decide)

/-! ## nl80211 payloads, per-entry decoders, and the orchestrator -/

/-- The nl80211 `NEW_SCAN_RESULTS` command code
(`Nl80211Cmd::NewScanResults`; the enum definition lives in the crate's
`nl80211/enums.rs`, and only this distinguished code matters here). -/
def NL80211_CMD_NEW_SCAN_RESULTS : Nat := 34

/-- The nested BSS attribute tree as consumed by the scan-result
extractor: each field is `some` exactly when the attribute is present
and its scalar payload parses at the requested width
(`get_attribute(...)?` / `get_payload_as::<i32>().ok()?`). -/
structure BssAttrs where
  signalMbm : Option Int
  informationElements : Option (List Nat)
deriving DecidableEq

/-- The top-level nl80211 attribute set of one generic-netlink message,
restricted to the attributes the sources consult; `some` means the
attribute is present and its payload parses at the requested type
(`get_attr_payload_as...`).  `bss` is the nested BSS tree obtained by
`get_nested_attributes`, `none` when absent or unparsable. -/
structure Nl80211Attrs where
  ifname : Option (List Nat)
  ifindex : Option Nat
  iftype : Option Nat
  wiphy : Option Nat
  wdev : Option Nat
  mac : Option (List Nat)
  bss : Option BssAttrs
deriving DecidableEq

/-- A decoded generic-netlink payload (`Genlmsghdr<Nl80211Cmd, Nl80211Attr>`):
the command code and the attribute set. -/
structure GenlPayload where
  cmd : Nat
  attrs : Nl80211Attrs
deriving DecidableEq

/-- `Interface` from src/nl80211/interface.rs.  The interface type is
kept as its raw `u32` code: the source's `InterfaceType::from` is total
(unknown codes map to `Unspecified`), so it can never make the decode
fail and is irrelevant to every claim. -/
structure Interface where
  name : List Nat
  index : Nat
  iftype : Nat
  wiphy : Nat
  wdev : Nat
  macAddress : List Nat
deriving DecidableEq

/-- `Interface::try_from` (src/nl80211/interface.rs): require the
`Ifname`, `Ifindex`, `Iftype`, `Wiphy`, `Wdev` and `Mac` attributes,
the last with exactly 6 bytes; any failure makes the whole entry fail. -/
def interfaceTryFrom (p : GenlPayload) : Option Interface := do
  let name ← p.attrs.ifname
  let index ← p.attrs.ifindex
  let iftype ← p.attrs.iftype
  let wiphy ← p.attrs.wiphy
  let wdev ← p.attrs.wdev
  let mac ← p.attrs.mac
  if mac.length = 6 then
    some { name := name, index := index, iftype := iftype,
           wiphy := wiphy, wdev := wdev, macAddress := mac }
  else none

/-- The per-message extractor of `get_interfaces`
(`Interface::try_from(msg.get_payload().ok()?).ok()`). -/
def interface_of_msg (m : NlMessage (Option GenlPayload)) : Option Interface :=
  m.payload.bind interfaceTryFrom

/-- The per-message extractor of `get_scan_results`
(src/nl80211/scan.rs, the closure passed to `recv_all`): decode the
payload, enter the nested BSS attributes, read the signal, convert it to
a quality, take the information-element buffer, extract the SSID bytes,
and keep the entry only if they are valid, non-empty UTF-8. -/
def station_of_msg (m : NlMessage (Option GenlPayload)) : Option Station := do
  let payload ← m.payload
  let bss_attrs ← payload.attrs.bss
  let signal_mbm ← bss_attrs.signalMbm
  let quality := dbm_level_to_quality signal_mbm
  let buffer ← bss_attrs.informationElements
  let ssid_bytes := extract_ssid buffer
  let ssid ← if utf8Valid ssid_bytes && !ssid_bytes.isEmpty then some ssid_bytes else none
  some { ssid := ssid, quality := quality }

/-- `get_interfaces` from src/nl80211/scan.rs (its receive side): drain
the interface dump with the interface extractor. -/
def get_interfaces (stream : List (List (NlMessage (Option GenlPayload)))) :
    Option (List Interface) :=
  recv_all interface_of_msg stream

/-- `get_scan_results` from src/nl80211/scan.rs (its receive side): drain
the scan dump with the station extractor. -/
def get_scan_results (stream : List (List (NlMessage (Option GenlPayload)))) :
    Option (List Station) :=
  recv_all station_of_msg stream

/-- The qualifying test of `complete_scan`: some message of the batch
decodes and carries the `NewScanResults` command. -/
def hasNewScanResults (msgs : List (NlMessage (Option GenlPayload))) : Bool :=
  msgs.any fun m =>
    match m.payload with
    | some p => p.cmd == NL80211_CMD_NEW_SCAN_RESULTS
    | none => false

/-- `complete_scan` from src/nl80211/scan.rs: one receive on the
multicast socket (`none` models its failure), then fail unless some
decodable message of that single batch has command `NewScanResults`. -/
def complete_scan (recvd : Option (List (NlMessage (Option GenlPayload)))) :
    Except String Unit :=
  match recvd with
  | none => Except.error "Failed to receive new scan results notification"
  | some msgs =>
    if hasNewScanResults msgs then Except.ok ()
    else Except.error "No scan results received"

/-- `trigger_scan` from src/nl80211/scan.rs: send the trigger request,
then one receive for the acknowledgement; either failure aborts.  The
acknowledgement's content is ignored. -/
def trigger_scan (sendOk : Bool) (ackRecv : Option (List (NlMessage (List Nat)))) :
    Except String Unit :=
  if sendOk then
    match ackRecv with
    | some _ => Except.ok ()
    | none => Except.error "Failed to receive trigger scan acknowledgement"
  else Except.error "Failed to send trigger scan message"

/-! ## `scan_wifi` (src/network.rs): the 45-iteration polling wait -/

/-- `WIFI_SCAN_TIMEOUT_SECONDS` from src/network.rs. -/
def WIFI_SCAN_TIMEOUT_SECONDS : Nat := 45

/-- The `for _ in 0..WIFI_SCAN_TIMEOUT_SECONDS` polling loop of
`scan_wifi`: `lastScan i` is the device's last-scan timestamp observed
at poll iteration `i`; the loop breaks as soon as it exceeds `prescan`,
else sleeps one second and retries.  Returns the iteration index at
which the loop ended (45 when the bound elapsed). -/
def scan_wifi_wait (prescan : Int) (lastScan : Nat → Int) (fuel i : Nat) : Nat :=
  match fuel with
  | 0 => i
  | fuel + 1 =>
    if prescan < lastScan i then i else scan_wifi_wait prescan lastScan fuel (i + 1)

/-- `scan_wifi` from src/network.rs: request a scan (`requestScanOk`
models `request_scan_future`), run the bounded polling wait — whose
outcome does not influence the return value — and return `Ok(())`. -/
def scan_wifi (requestScanOk : Bool) (prescan : Int) (lastScan : Nat → Int) :
    Except String Unit :=
  if requestScanOk then
    let _polls := scan_wifi_wait prescan lastScan WIFI_SCAN_TIMEOUT_SECONDS 0
    Except.ok ()
  else Except.error "Failed to request WiFi scan"

theorem scan_wifi_wait_exhausts (prescan : Int) (lastScan : Nat → Int) :
    ∀ (fuel i : Nat), (∀ j, j < i + fuel → ¬prescan < lastScan j) →
    scan_wifi_wait prescan lastScan fuel i = i + fuel := by
  intro fuel
  induction fuel with
  | zero => intro i _; simp [scan_wifi_wait]
  | succ fuel ih =>
    intro i h
    simp only [scan_wifi_wait]
    rw [if_neg (h i (by omega))]
    rw [ih (i + 1) (fun j hj => h j (by omega))]
    omega

/-- An attribute set with every attribute absent. -/
def emptyAttrs : Nl80211Attrs := ⟨none, none, none, none, none, none, none⟩

/-- C2 (counterexample): with the trigger accepted and the device's
last-scan timestamp never exceeding the pre-scan timestamp, no
qualifying update is observed at any of the 45 one-second polling
iterations, yet `scan_wifi` returns success — the bound elapsing does
not produce a `ScanTimeout` (or any) error, contradicting the claim
that `scan()` then fails. -/
theorem scan_wifi_timeout_returns_ok_counterexample :
    (∀ i, i < 45 → ¬(10 : Int) < (fun _ => (0 : Int)) i) ∧
    scan_wifi true 10 (fun _ => 0) = Except.ok () :=
  ⟨fun i _ => by show ¬(10 : Int) < 0; decide, rfl⟩

/-- C2 (amended): if no qualifying update is observed within the bound —
the last-scan timestamp never exceeds the pre-scan timestamp at any of
the 45 polling iterations — `scan_wifi` does not wait further (the loop
runs exactly the 45 bounded iterations) but then returns success rather
than a `ScanTimeout` error; no timeout error exists in the code.  (On
the nl80211 side, `complete_scan` has no 45-iteration bound at all: it
performs a single receive — see the C3 theorems.) -/
theorem scan_wifi_bounded_then_ok (prescan : Int) (lastScan : Nat → Int)
    (h : ∀ i, i < 45 → ¬prescan < lastScan i) :
    scan_wifi true prescan lastScan = Except.ok () ∧
    scan_wifi_wait prescan lastScan WIFI_SCAN_TIMEOUT_SECONDS 0 = 45 :=
  ⟨rfl, scan_wifi_wait_exhausts prescan lastScan 45 0 (fun j hj => h j (by omega))⟩

/-- Witness for C2 (amended) at a pre-scan timestamp 7 and a constant
last-scan timestamp 3. -/
theorem scan_wifi_bounded_then_ok_witness :
    scan_wifi true 7 (fun _ => 3) = Except.ok () ∧
    scan_wifi_wait 7 (fun _ => 3) WIFI_SCAN_TIMEOUT_SECONDS 0 = 45 :=
  scan_wifi_bounded_then_ok 7 (fun _ => 3) (fun i _ => by show ¬(7 : Int) < 3; decide)

/-- C3 (counterexample): a received batch whose only decodable message
carries the `TriggerScan` command code (33) rather than
`NewScanResults` makes `complete_scan` fail immediately with
"No scan results received" — the non-qualifying notification is not
ignored and waiting does not continue. -/
theorem complete_scan_nonqualifying_fails_counterexample :
    complete_scan (some [⟨0, some ⟨33, emptyAttrs⟩⟩]) =
      Except.error "No scan results received" := rfl

/-- C3 (amended): `complete_scan` inspects only the single batch
delivered by its one receive: if none of the batch's decodable messages
carries the `NewScanResults` command it fails at once with
"No scan results received" — there is no continued waiting — and if
some message does, it succeeds. -/
theorem complete_scan_single_batch_policy (msgs : List (NlMessage (Option GenlPayload))) :
    (hasNewScanResults msgs = false →
      complete_scan (some msgs) = Except.error "No scan results received") ∧
    (hasNewScanResults msgs = true → complete_scan (some msgs) = Except.ok ()) := by
  constructor <;> intro h <;> simp [complete_scan, h]

/-- Witness for C3 (amended): a qualifying batch (command 34) succeeds
and a non-qualifying one (command 33, undecodable second message) fails. -/
theorem complete_scan_single_batch_policy_witness :
    complete_scan (some [⟨0, some ⟨34, emptyAttrs⟩⟩]) = Except.ok () ∧
    complete_scan (some [⟨0, some ⟨33, emptyAttrs⟩⟩, ⟨0, none⟩]) =
      Except.error "No scan results received" :=
  ⟨(complete_scan_single_batch_policy [⟨0, some ⟨34, emptyAttrs⟩⟩]).2 (by decide),
   (complete_scan_single_batch_policy [⟨0, some ⟨33, emptyAttrs⟩⟩, ⟨0, none⟩]).1 (by decide)⟩

theorem recv_all_drop_undecodable {α β : Type} (f : NlMessage α → Option β)
    (bad : NlMessage α) (b : List (NlMessage α)) (rest : List (List (NlMessage α)))
    (hbad : isDone bad = false) (hf : f bad = none) :
    recv_all f ((bad :: b) :: rest) = recv_all f (b :: rest) := by
  simp [recv_all, recv_batch, hbad, hf]

/-- A fully decodable interface-dump message (`wlan0`, index 3). -/
def goodIfaceMsg : NlMessage (Option GenlPayload) :=
  ⟨0, some ⟨7, ⟨some [119, 108, 97, 110, 48], some 3, some 2, some 0, some 1,
    some [1, 2, 3, 4, 5, 6], none⟩⟩⟩

/-- The interface decoded from `goodIfaceMsg`. -/
def goodIface : Interface := ⟨[119, 108, 97, 110, 48], 3, 2, 0, 1, [1, 2, 3, 4, 5, 6]⟩

/-- C4 (counterexample): an interface-dump response whose first message's
payload fails to decode does not abort the call: `get_interfaces`
succeeds, silently dropping the undecodable entry and returning the
remaining interface — so a decode failure on an interface-list control
response does not abort `scan()`, contrary to the claim. -/
theorem interface_decode_failure_not_fatal_counterexample :
    interface_of_msg (⟨0, none⟩ : NlMessage (Option GenlPayload)) = none ∧
    get_interfaces [[⟨0, none⟩, goodIfaceMsg, ⟨NLMSG_DONE, none⟩]] = some [goodIface] := by
  constructor <;> decide

/-- C4 (amended): per-entry decode failures are swallowed in *both*
dumps — an undecodable non-`Done` message in an interface-list or
scan-results response is dropped, leaving the call's result unchanged,
and the call continues — whereas a failure to receive the trigger
acknowledgement does abort with an error. -/
theorem per_entry_decode_failures_dropped
    (bad : NlMessage (Option GenlPayload)) (b : List (NlMessage (Option GenlPayload)))
    (rest : List (List (NlMessage (Option GenlPayload))))
    (hbad : isDone bad = false) (hiface : interface_of_msg bad = none)
    (hstation : station_of_msg bad = none) :
    get_interfaces ((bad :: b) :: rest) = get_interfaces (b :: rest) ∧
    get_scan_results ((bad :: b) :: rest) = get_scan_results (b :: rest) ∧
    trigger_scan true none = Except.error "Failed to receive trigger scan acknowledgement" :=
  ⟨recv_all_drop_undecodable interface_of_msg bad b rest hbad hiface,
   recv_all_drop_undecodable station_of_msg bad b rest hbad hstation,
   rfl⟩

/-- Witness for C4 (amended) at a concrete undecodable message in front
of a decodable interface message. -/
theorem per_entry_decode_failures_dropped_witness :
    get_interfaces [[⟨0, none⟩, goodIfaceMsg, ⟨NLMSG_DONE, none⟩]] =
      get_interfaces [[goodIfaceMsg, ⟨NLMSG_DONE, none⟩]] ∧
    get_scan_results [[⟨0, none⟩, goodIfaceMsg, ⟨NLMSG_DONE, none⟩]] =
      get_scan_results [[goodIfaceMsg, ⟨NLMSG_DONE, none⟩]] ∧
    trigger_scan true none = Except.error "Failed to receive trigger scan acknowledgement" :=
  per_entry_decode_failures_dropped ⟨0, none⟩ [goodIfaceMsg, ⟨NLMSG_DONE, none⟩] []
    (by decide) rfl rfl

/-- Scan-result message for SSID "A" ([65]) at signal -7000 (quality 50). -/
def scanMsgA : NlMessage (Option GenlPayload) :=
  ⟨0, some ⟨0, ⟨none, none, none, none, none, none, some ⟨some (-7000), some [0, 1, 65]⟩⟩⟩⟩

/-- Scan-result message for SSID "B" ([66]) at signal -5200 (quality 80). -/
def scanMsgB : NlMessage (Option GenlPayload) :=
  ⟨0, some ⟨0, ⟨none, none, none, none, none, none, some ⟨some (-5200), some [0, 1, 66]⟩⟩⟩⟩

/-- A one-batch scan dump delivering "A" then "B" then `Done`. -/
def c1Stream : List (List (NlMessage (Option GenlPayload))) :=
  [[scanMsgA, scanMsgB, ⟨NLMSG_DONE, none⟩]]

theorem extract_ssid_bufA : extract_ssid [0, 1, 65] = [65] := by
  have h := extract_ssid_go_found 2 [65] []
  simpa [extract_ssid, encodeElement, WLAN_EID_SSID] using h

theorem extract_ssid_bufB : extract_ssid [0, 1, 66] = [66] := by
  have h := extract_ssid_go_found 2 [66] []
  simpa [extract_ssid, encodeElement, WLAN_EID_SSID] using h

theorem station_of_msg_scanMsgA : station_of_msg scanMsgA = some ⟨[65], 50⟩ := by
  simp [station_of_msg, scanMsgA, extract_ssid_bufA, dbm_eval_m7000]
  decide

theorem station_of_msg_scanMsgB : station_of_msg scanMsgB = some ⟨[66], 80⟩ := by
  simp [station_of_msg, scanMsgB, extract_ssid_bufB, dbm_eval_m5200]
  decide

theorem c1_candidates :
    (beforeDone c1Stream).filterMap station_of_msg = [⟨[65], 50⟩, ⟨[66], 80⟩] := by
  have hbd : beforeDone c1Stream = [scanMsgA, scanMsgB] := by decide
  rw [hbd]
  simp [List.filterMap_cons, station_of_msg_scanMsgA, station_of_msg_scanMsgB]

theorem c1_scan_eval : get_scan_results c1Stream = some [⟨[65], 50⟩, ⟨[66], 80⟩] := by
  have h := recv_all_drain station_of_msg c1Stream [] (by decide)
  rw [List.append_nil] at h
  rw [get_scan_results, h, c1_candidates]

/-- C1 (counterexample): a successful scan whose decoded candidates
arrive as [("A",50), ("B",80)] returns them in that arrival order; the
`get_nearby_stations` pipeline applied to the same candidates would put
("B",80) first — so `scan()`'s returned list is not the result of the
post-processing pipeline. -/
theorem scan_no_pipeline_counterexample :
    get_scan_results c1Stream = some [⟨[65], 50⟩, ⟨[66], 80⟩] ∧
    get_nearby_stations [⟨[65], 50⟩, ⟨[66], 80⟩] = [⟨[66], 80⟩, ⟨[65], 50⟩] ∧
    get_scan_results c1Stream ≠
      some (get_nearby_stations ((beforeDone c1Stream).filterMap station_of_msg)) := by
  refine ⟨c1_scan_eval, by decide, ?_⟩
  rw [c1_scan_eval, c1_candidates]
  decide

/-- C1 (amended): a successful `scan()` returns exactly the per-entry
decodes in arrival order — the non-`None` results of `station_of_msg`
on the messages before the `Done` marker.  No sorting and no SSID
de-duplication is applied to this list (the `get_nearby_stations`
pipeline is a separate function used on the NetworkManager access-point
list); entries with empty SSID still never appear, because the
per-entry decoder already filters them (see the C9 theorem). -/
theorem scan_returns_decoded_in_arrival_order
    (stream : List (List (NlMessage (Option GenlPayload))))
    (h : streamHasDone stream = true) :
    get_scan_results stream = some ((beforeDone stream).filterMap station_of_msg) := by
  have hd := recv_all_drain station_of_msg stream [] h
  rwa [List.append_nil] at hd

/-- Witness for C1 (amended) at the concrete dump `c1Stream`. -/
theorem scan_returns_decoded_in_arrival_order_witness :
    get_scan_results c1Stream = some ((beforeDone c1Stream).filterMap station_of_msg) :=
  scan_returns_decoded_in_arrival_order c1Stream (by decide)

theorem recv_all_mem {α β : Type} (f : NlMessage α → Option β) :
    ∀ (s : List (List (NlMessage α))) (l : List β),
    recv_all f s = some l → ∀ x ∈ l, ∃ m, f m = some x := by
  intro s
  induction s with
  | nil => intro l h x hx; simp [recv_all] at h
  | cons b bs ih =>
    intro l h x hx
    simp only [recv_all, recv_batch_eq] at h
    by_cases hb : batchHasDone b
    · rw [if_pos hb] at h
      have he : (b.takeWhile notDone).filterMap f = l := Option.some.inj h
      subst he
      rcases List.mem_filterMap.mp hx with ⟨m, _, hm⟩
      exact ⟨m, hm⟩
    · rw [if_neg hb] at h
      cases hrec : recv_all f bs with
      | none => rw [hrec] at h; simp at h
      | some rest =>
        rw [hrec] at h
        have he : (b.takeWhile notDone).filterMap f ++ rest = l := Option.some.inj h
        subst he
        rcases List.mem_append.mp hx with hx1 | hx2
        · rcases List.mem_filterMap.mp hx1 with ⟨m, _, hm⟩
          exact ⟨m, hm⟩
        · exact ih rest hrec x hx2

theorem station_of_msg_ssid_ne_nil (m : NlMessage (Option GenlPayload)) (st : Station)
    (h : station_of_msg m = some st) : st.ssid ≠ [] := by
  cases hp : m.payload with
  | none => simp [station_of_msg, hp] at h
  | some payload =>
    cases hbss : payload.attrs.bss with
    | none => simp [station_of_msg, hp, hbss] at h
    | some battrs =>
      cases hsig : battrs.signalMbm with
      | none => simp [station_of_msg, hp, hbss, hsig] at h
      | some sig =>
        cases hie : battrs.informationElements with
        | none => simp [station_of_msg, hp, hbss, hsig, hie] at h
        | some buffer =>
          simp [station_of_msg, hp, hbss, hsig, hie] at h
          obtain ⟨⟨_, hne⟩, hst⟩ := h
          rw [← hst]
          exact hne

/-- C9: every station produced by the scan-result extraction step has a
non-empty SSID — entries whose SSID element is absent (the extractor
yields `[]`), whose SSID decodes to the empty string, or whose bytes are
not valid UTF-8 are dropped during per-entry decode — so no empty-SSID
station can appear in a successful `get_scan_results` output, without
any separate post-processing filter. -/
theorem scan_stations_nonempty_ssid
    (stream : List (List (NlMessage (Option GenlPayload)))) (l : List Station)
    (h : get_scan_results stream = some l) : ∀ st ∈ l, st.ssid ≠ [] := by
  intro st hst
  obtain ⟨m, hm⟩ := recv_all_mem station_of_msg stream l h st hst
  exact station_of_msg_ssid_ne_nil m st hm

/-- Witness for C9 at the concrete dump `c1Stream` and its first station. -/
theorem scan_stations_nonempty_ssid_witness :
    (⟨[65], 50⟩ : Station).ssid ≠ [] :=
  scan_stations_nonempty_ssid c1Stream [⟨[65], 50⟩, ⟨[66], 80⟩] c1_scan_eval
    ⟨[65], 50⟩ (by decide)
